import Mathlib

/-!
Verification development for the milkflow-smart-manager repository.

The repository is a dairy-collection management app.  The parts embedded
here are the ones the specification makes claims about:

* the two `AddCollectionForm.calculateAmount` payment calculators
  (flat-rate and fat-adjusted variants) and their `handleSubmit`
  persistence paths (the `milk_collections` table stores
  `DECIMAL(10,2)` columns, so persisted values are rounded to two
  decimal places);
* the client-side aggregation code: supplier-page stats
  (`fetchSupplierData`), admin dashboard stats (`fetchDashboardStats`),
  the daily payment summary grouping (`fetchDailyTotals`), and the
  daily SMS summary job;
* the realtime INSERT handler that patches supplier stats
  incrementally;
* the row-level-security SELECT policy on `milk_collections` together
  with the `has_role` helper;
* the `link_supplier_to_user` signup trigger.

Numeric form fields are modelled as `Option ℚ`: `none` is the empty
input string (falsy in the source's guards), `some v` a parseable
value.  Database `DECIMAL(10,2)` storage is modelled by rounding to
two decimal places with round-half-up, which agrees with the
database's round-half-away-from-zero on the nonnegative values stored
here.
-/

namespace MilkFlow

/-- Rounding to two decimal places, as done by the `DECIMAL(10,2)`
columns of `milk_collections` on insert. -/
def round2 (x : ℚ) : ℚ := ((round (100 * x) : ℤ) : ℚ) / 100

/-- `x` is a decimal number with at most two fractional digits. -/
def Dec2 (x : ℚ) : Prop := ∃ n : ℤ, x = (n : ℚ) / 100

theorem round2_of_dec2 {x : ℚ} (h : Dec2 x) : round2 x = x := by
  obtain ⟨n, rfl⟩ := h
  have h100 : (100 : ℚ) * ((n : ℚ) / 100) = (n : ℚ) := by ring
  rw [round2, h100, round_intCast]

theorem round_rat_of_bounds {x : ℚ} {n : ℤ} (h1 : (n : ℚ) ≤ x + 1 / 2)
    (h2 : x + 1 / 2 < (n : ℚ) + 1) : round x = n := by
  rw [round_eq]
  exact Int.floor_eq_iff.mpr ⟨h1, h2⟩

theorem round2_of_bounds {x : ℚ} {n : ℤ} (h1 : (n : ℚ) ≤ 100 * x + 1 / 2)
    (h2 : 100 * x + 1 / 2 < (n : ℚ) + 1) : round2 x = (n : ℚ) / 100 := by
  rw [round2, round_rat_of_bounds h1 h2]

namespace FlatForm

/-- `calculateAmount` of the flat-rate `AddCollectionForm` variant:
returns `0` when either field is empty, otherwise the raw product
`qty * rate` (no rounding is applied). -/
def calculateAmount (quantity ratePerLiter : Option ℚ) : ℚ :=
  match quantity, ratePerLiter with
  | some qty, some rate => qty * rate
  | _, _ => 0

end FlatForm

namespace FatForm

/-- `calculateAmount` of the fat-adjusted `AddCollectionForm` variant:
returns the pair `(ratePerLiter, totalAmount)`.  When any field is
empty it returns `(0, 0)`; otherwise
`ratePerLiter = base * (1 + fat / 100)` and
`totalAmount = qty * ratePerLiter` (no rounding is applied). -/
def calculateAmount (quantity fatPercentage baseRate : Option ℚ) : ℚ × ℚ :=
  match quantity, fatPercentage, baseRate with
  | some qty, some fat, some base =>
      (base * (1 + fat / 100), qty * (base * (1 + fat / 100)))
  | _, _, _ => (0, 0)

/-- The guard at the top of the fat-adjusted form's `handleSubmit`:
submission proceeds only when supplier, quantity and fat percentage
are all non-empty. -/
def submitAccepted (selectedSupplier : Option Nat)
    (quantity fatPercentage : Option ℚ) : Bool :=
  selectedSupplier.isSome && quantity.isSome && fatPercentage.isSome

end FatForm

/-- The numeric `DECIMAL(10,2)` columns of a persisted
`milk_collections` row that the round-trip invariant concerns. -/
structure StoredCollection where
  quantity_liters : ℚ
  rate_per_liter : ℚ
  total_amount : ℚ
  deriving DecidableEq, Repr

namespace FlatForm

/-- The flat-rate `handleSubmit` insert: quantity and rate are stored
as entered, `total_amount` is `calculateAmount`'s result; each
`DECIMAL(10,2)` column rounds its value to two decimal places. -/
def persist (quantity ratePerLiter : ℚ) : StoredCollection :=
  { quantity_liters := round2 quantity
    rate_per_liter := round2 ratePerLiter
    total_amount := round2 (calculateAmount (some quantity) (some ratePerLiter)) }

end FlatForm

namespace FatForm

/-- The fat-adjusted `handleSubmit` insert: quantity is stored as
entered, the derived rate and total come from `calculateAmount`; each
`DECIMAL(10,2)` column rounds its value to two decimal places. -/
def persist (quantity fatPercentage baseRate : ℚ) : StoredCollection :=
  { quantity_liters := round2 quantity
    rate_per_liter :=
      round2 (calculateAmount (some quantity) (some fatPercentage) (some baseRate)).1
    total_amount :=
      round2 (calculateAmount (some quantity) (some fatPercentage) (some baseRate)).2 }

end FatForm

/-- A `milk_collections` row as the client-side aggregation code reads
it.  `fat_percentage` is nullable (the flat-rate entry form inserts
`null`); `none` models a null value, which `Number(...)` coerces to
`0` in the source (as does the `|| 0` fallback in the SMS job). -/
structure Collection where
  collection_date : String
  supplier_id : Nat
  quantity_liters : ℚ
  fat_percentage : Option ℚ
  total_amount : ℚ
  deriving DecidableEq, Repr

namespace SupplierPage

/-- The stats object of the supplier page variant that tracks an
average fat percentage. -/
structure Stats where
  totalCollections : ℚ
  totalAmount : ℚ
  avgFatPercentage : ℚ
  deriving DecidableEq, Repr

/-- The stats computation at the end of `fetchSupplierData`: reduces
over the fetched collections; the average divides the zero-filled fat
sum by the record count, guarded by a length check. -/
def fetchSupplierStats (cols : List Collection) : Stats :=
  { totalCollections := cols.foldl (fun sum col => sum + col.quantity_liters) 0
    totalAmount := cols.foldl (fun sum col => sum + col.total_amount) 0
    avgFatPercentage :=
      if cols.length = 0 then 0
      else cols.foldl (fun sum col => sum + col.fat_percentage.getD 0) 0 / cols.length }

/-- The realtime INSERT handler's stats update: adds the new record's
quantity and amount to the running totals and leaves the average fat
percentage unchanged (the source comment reads
`Recalculate on next full fetch`). -/
def realtimeInsertStats (prev : Stats) (c : Collection) : Stats :=
  { totalCollections := prev.totalCollections + c.quantity_liters
    totalAmount := prev.totalAmount + c.total_amount
    avgFatPercentage := prev.avgFatPercentage }

end SupplierPage

namespace SupplierPageFlat

/-- The stats object of the flat-rate supplier page variant
(`src/pages/Supplier.tsx`): totals only, no average. -/
structure Stats where
  totalCollections : ℚ
  totalAmount : ℚ
  deriving DecidableEq, Repr

/-- The stats computation at the end of `fetchSupplierData` in the
flat-rate variant. -/
def fetchSupplierStats (cols : List Collection) : Stats :=
  { totalCollections := cols.foldl (fun sum col => sum + col.quantity_liters) 0
    totalAmount := cols.foldl (fun sum col => sum + col.total_amount) 0 }

end SupplierPageFlat

namespace AdminDashboard

/-- The admin dashboard stats object. -/
structure Stats where
  totalSuppliers : Nat
  todayCollection : ℚ
  todayPayment : ℚ
  avgFatPercentage : ℚ
  deriving DecidableEq, Repr

/-- `fetchDashboardStats`: active-supplier count plus reductions over
today's collections; the average is guarded by a length check. -/
def fetchDashboardStats (suppliersCount : Nat) (todayCollections : List Collection) :
    Stats :=
  { totalSuppliers := suppliersCount
    todayCollection := todayCollections.foldl (fun sum col => sum + col.quantity_liters) 0
    todayPayment := todayCollections.foldl (fun sum col => sum + col.total_amount) 0
    avgFatPercentage :=
      if todayCollections.length = 0 then 0
      else
        todayCollections.foldl (fun sum col => sum + col.fat_percentage.getD 0) 0 /
          todayCollections.length }

end AdminDashboard

namespace DailySummaryJob

/-- The per-supplier totals the daily SMS summary job computes over a
supplier's collections for the day (only reached when the list is
nonempty; the job `continue`s on an empty list). -/
def totalQuantity (collections : List Collection) : ℚ :=
  collections.foldl (fun sum c => sum + c.quantity_liters) 0

def totalAmount (collections : List Collection) : ℚ :=
  collections.foldl (fun sum c => sum + c.total_amount) 0

/-- `avgFat` of the daily SMS summary job: zero-fills a null fat
percentage via `|| 0` and divides by the full record count. -/
def avgFat (collections : List Collection) : ℚ :=
  collections.foldl (fun sum c => sum + c.fat_percentage.getD 0) 0 / collections.length

end DailySummaryJob

/-- The average fat as the specification describes it: computed only
over records whose fat percentage is present, with absent records
excluded from the denominator.  Stated from the spec's words for
comparison with the source's computations. -/
def specAvgFat (cols : List Collection) : ℚ :=
  let present := cols.filterMap (fun c => c.fat_percentage)
  if present.length = 0 then 0 else present.sum / present.length

namespace DailyPaymentSummary

/-- One row of the daily payment summary (`DailyTotal` in the
source). -/
structure DailyTotal where
  date : String
  totalLiters : ℚ
  totalAmount : ℚ
  collectionCount : Nat
  deriving DecidableEq, Repr

/-- One step of the grouping reduce in `fetchDailyTotals`: the
accumulator models the JS object as an insertion-ordered association
list keyed by the literal `collection_date` string.  A missing key
gets a zero entry appended, then the entry for the key is
incremented. -/
def step (acc : List DailyTotal) (curr : Collection) : List DailyTotal :=
  let date := curr.collection_date
  let acc' := if acc.any (fun t => t.date = date) then acc
              else acc ++ [⟨date, 0, 0, 0⟩]
  acc'.map (fun t =>
    if t.date = date then
      ⟨t.date, t.totalLiters + curr.quantity_liters,
        t.totalAmount + curr.total_amount, t.collectionCount + 1⟩
    else t)

/-- The grouping reduce of `fetchDailyTotals` (the source then sorts
the resulting entries by parsed date, a reordering that does not
affect group membership). -/
def grouped (data : List Collection) : List DailyTotal :=
  data.foldl step []

/-- The group entry a given date string selects. -/
def entry (l : List DailyTotal) (d : String) : Option DailyTotal :=
  l.find? (fun t => t.date = d)

/-- The daily group a record lands in: the entry keyed by its literal
date string. -/
def groupOf (data : List Collection) (c : Collection) : Option DailyTotal :=
  entry (grouped data) c.collection_date

/-- The effect of one record on the entry its date selects: a fresh
entry when the date was absent (shaped exactly as `step` produces
it), an increment otherwise. -/
def bump (c : Collection) : Option DailyTotal → DailyTotal
  | some t => ⟨t.date, t.totalLiters + c.quantity_liters,
      t.totalAmount + c.total_amount, t.collectionCount + 1⟩
  | none => ⟨c.collection_date, 0 + c.quantity_liters, 0 + c.total_amount, 0 + 1⟩

/-- Entry count for a date, `0` when the date has no entry. -/
def countOf (l : List DailyTotal) (d : String) : Nat :=
  ((entry l d).map (fun t => t.collectionCount)).getD 0

/-- Entry liters for a date, `0` when the date has no entry. -/
def litersOf (l : List DailyTotal) (d : String) : ℚ :=
  ((entry l d).map (fun t => t.totalLiters)).getD 0

/-- Entry amount for a date, `0` when the date has no entry. -/
def amountOf (l : List DailyTotal) (d : String) : ℚ :=
  ((entry l d).map (fun t => t.totalAmount)).getD 0

end DailyPaymentSummary

/-- The `app_role` enum. -/
inductive AppRole where
  | admin
  | supplier
  deriving DecidableEq, Repr

/-- A `suppliers` row (the columns the policies and the linking
trigger touch).  `user_id` is the nullable identity link, `phone` the
text column the signup trigger matches on. -/
structure SupplierRow where
  id : Nat
  user_id : Option Nat
  phone : String
  deriving DecidableEq, Repr

/-- The database state the row-level-security policies consult:
the `suppliers` table and the `user_roles` table. -/
structure DB where
  suppliers : List SupplierRow
  user_roles : List (Nat × AppRole)
  deriving Repr

/-- `has_role(_user_id, _role)`: true iff a `user_roles` row exists
with that user and role. -/
def has_role (db : DB) (uid : Nat) (r : AppRole) : Bool :=
  db.user_roles.any (fun p => p.1 = uid ∧ p.2 = r)

/-- A `milk_collections` row as the SELECT policy sees it. -/
structure CollectionRow where
  id : Nat
  supplier_id : Nat
  deriving DecidableEq, Repr

/-- The `IN` subquery of the policy `Suppliers can view own
collections`: the ids of `suppliers` rows whose `user_id` equals the
caller. -/
def ownSupplierIds (db : DB) (uid : Nat) : List Nat :=
  (db.suppliers.filter (fun s => s.user_id = some uid)).map (fun s => s.id)

/-- The combined SELECT admission on `milk_collections`: permissive
policies are OR-combined, so a row is visible when `Admins can manage
collections` (`has_role(auth.uid(), admin)`) or `Suppliers can view
own collections` (`supplier_id IN (SELECT id FROM suppliers WHERE
user_id = auth.uid())`) admits it. -/
def collectionSelectPolicy (db : DB) (uid : Nat) (row : CollectionRow) : Bool :=
  has_role db uid AppRole.admin || (ownSupplierIds db uid).contains row.supplier_id

/-- The `link_supplier_to_user` signup trigger: reads the new
identity's phone as `COALESCE(raw_user_meta_data->>'phone', '')` and,
when it is non-empty, sets `user_id = NEW.id` on every `suppliers`
row whose `phone` equals it and whose `user_id` is null. -/
def link_supplier_to_user (metaPhone : Option String) (newId : Nat)
    (suppliers : List SupplierRow) : List SupplierRow :=
  let user_phone := metaPhone.getD ""
  if user_phone ≠ "" then
    suppliers.map (fun s =>
      if s.phone = user_phone ∧ s.user_id = none then
        { s with user_id := some newId }
      else s)
  else suppliers

end MilkFlow

/-! ## Shared lemmas -/

namespace MilkFlow

theorem foldl_add_map {α : Type} (f : α → ℚ) :
    ∀ (l : List α) (a : ℚ), l.foldl (fun s x => s + f x) a = a + (l.map f).sum := by
  intro l
  induction l with
  | nil => intro a; simp
  | cons x xs ih =>
      intro a
      rw [List.foldl_cons, ih (a + f x), List.map_cons, List.sum_cons, add_assoc]

namespace DailyPaymentSummary

theorem entry_date {l : List DailyTotal} {d : String} {t : DailyTotal}
    (h : entry l d = some t) : t.date = d := by
  have := List.find?_some h
  simpa using this

theorem entry_step (acc : List DailyTotal) (c : Collection) (d : String) :
    entry (step acc c) d =
      if c.collection_date = d then some (bump c (entry acc d)) else entry acc d := by
  classical
  set g : DailyTotal → DailyTotal := fun t =>
    if t.date = c.collection_date then
      ⟨t.date, t.totalLiters + c.quantity_liters,
        t.totalAmount + c.total_amount, t.collectionCount + 1⟩
    else t with hg
  have hgdate : ∀ t, (g t).date = t.date := by
    intro t
    by_cases h : t.date = c.collection_date <;> simp [hg, h]
  have hfindmap : ∀ l : List DailyTotal,
      (l.map g).find? (fun t => t.date = d) =
        (l.find? (fun t => t.date = d)).map g := by
    intro l
    rw [List.find?_map]
    have hp : ((fun t : DailyTotal => decide (t.date = d)) ∘ g) =
        fun t : DailyTotal => decide (t.date = d) := by
      funext t
      simp [Function.comp, hgdate t]
    rw [hp]
  by_cases hany : acc.any (fun t => t.date = c.collection_date)
  · have hstep : step acc c = acc.map g := by
      simp [step, hany, hg]
    by_cases hd : c.collection_date = d
    · obtain ⟨t0, ht0mem, ht0d⟩ : ∃ t0, t0 ∈ acc ∧ t0.date = d := by
        obtain ⟨t0, ht0, hp⟩ := List.any_eq_true.mp hany
        exact ⟨t0, ht0, by simpa [hd] using hp⟩
      obtain ⟨t1, ht1⟩ : ∃ t1, entry acc d = some t1 := by
        have : (acc.find? (fun t => t.date = d)).isSome :=
          List.find?_isSome.mpr ⟨t0, ht0mem, by simpa using ht0d⟩
        exact Option.isSome_iff_exists.mp this
      have ht1d : t1.date = d := entry_date ht1
      rw [hstep, if_pos hd]
      show (acc.map g).find? (fun t => t.date = d) = some (bump c (entry acc d))
      rw [hfindmap, show acc.find? (fun t => t.date = d) = some t1 from ht1, ht1]
      simp [hg, bump, ht1d, hd]
    · rw [hstep, if_neg hd]
      show (acc.map g).find? (fun t => t.date = d) = entry acc d
      rw [hfindmap]
      cases hfd : acc.find? (fun t => t.date = d) with
      | none => simp [entry, hfd]
      | some t0 =>
          have ht0d : t0.date = d := by simpa using List.find?_some hfd
          have : g t0 = t0 := by
            have : t0.date ≠ c.collection_date := by
              rw [ht0d]; exact fun h => hd h.symm
            simp [hg, this]
          simp [entry, hfd, this]
  · have hnotin : ∀ t ∈ acc, t.date ≠ c.collection_date := by
      simpa [List.any_eq_true] using hany
    have hstep : step acc c =
        acc.map g ++ [g ⟨c.collection_date, 0, 0, 0⟩] := by
      simp [step, hany, hg]
    have hfresh : g ⟨c.collection_date, 0, 0, 0⟩ = bump c none := by
      simp [hg, bump]
    by_cases hd : c.collection_date = d
    · have hnone : acc.find? (fun t => t.date = d) = none := by
        rw [List.find?_eq_none]
        intro t ht
        simpa [hd] using hnotin t ht
      rw [hstep, if_pos hd]
      show (acc.map g ++ [g ⟨c.collection_date, 0, 0, 0⟩]).find? (fun t => t.date = d) =
        some (bump c (entry acc d))
      rw [List.find?_append, hfindmap, hnone]
      have : entry acc d = none := hnone
      rw [this, hfresh]
      simp [bump, hd]
    · rw [hstep, if_neg hd]
      show (acc.map g ++ [g ⟨c.collection_date, 0, 0, 0⟩]).find? (fun t => t.date = d) =
        entry acc d
      rw [List.find?_append, hfindmap, hfresh]
      have hfreshnone : ([bump c none].find? (fun t => t.date = d)) = none := by
        rw [List.find?_eq_none]
        intro t ht
        simp at ht
        subst ht
        simpa [bump] using hd
      rw [hfreshnone]
      cases hfd : acc.find? (fun t => t.date = d) with
      | none => simp [entry, hfd]
      | some t0 =>
          have ht0d : t0.date = d := by simpa using List.find?_some hfd
          have hgt0 : g t0 = t0 := by
            have : t0.date ≠ c.collection_date := by
              rw [ht0d]; exact fun h => hd h.symm
            simp [hg, this]
          simp [entry, hfd, hgt0]

theorem countOf_step (acc : List DailyTotal) (c : Collection) (d : String) :
    countOf (step acc c) d =
      countOf acc d + (if c.collection_date = d then 1 else 0) := by
  unfold countOf
  rw [entry_step]
  by_cases hd : c.collection_date = d
  · rw [if_pos hd, if_pos hd]
    cases h : entry acc d <;> simp [h, bump]
  · simp [hd]

theorem litersOf_step (acc : List DailyTotal) (c : Collection) (d : String) :
    litersOf (step acc c) d =
      litersOf acc d + (if c.collection_date = d then c.quantity_liters else 0) := by
  unfold litersOf
  rw [entry_step]
  by_cases hd : c.collection_date = d
  · rw [if_pos hd, if_pos hd]
    cases h : entry acc d <;> simp [h, bump]
  · simp [hd]

theorem amountOf_step (acc : List DailyTotal) (c : Collection) (d : String) :
    amountOf (step acc c) d =
      amountOf acc d + (if c.collection_date = d then c.total_amount else 0) := by
  unfold amountOf
  rw [entry_step]
  by_cases hd : c.collection_date = d
  · rw [if_pos hd, if_pos hd]
    cases h : entry acc d <;> simp [h, bump]
  · simp [hd]

theorem countOf_foldl (data : List Collection) :
    ∀ (acc : List DailyTotal) (d : String),
      countOf (data.foldl step acc) d =
        countOf acc d + data.countP (fun c => c.collection_date = d) := by
  induction data with
  | nil => intro acc d; simp
  | cons c cs ih =>
      intro acc d
      rw [List.foldl_cons, ih (step acc c) d, countOf_step, List.countP_cons]
      by_cases hd : c.collection_date = d <;> (simp [hd]; try omega)

theorem litersOf_foldl (data : List Collection) :
    ∀ (acc : List DailyTotal) (d : String),
      litersOf (data.foldl step acc) d =
        litersOf acc d +
          ((data.filter (fun c => c.collection_date = d)).map
            (fun c => c.quantity_liters)).sum := by
  induction data with
  | nil => intro acc d; simp
  | cons c cs ih =>
      intro acc d
      rw [List.foldl_cons, ih (step acc c) d, litersOf_step, List.filter_cons]
      by_cases hd : c.collection_date = d <;> (simp [hd]; try ring)

theorem amountOf_foldl (data : List Collection) :
    ∀ (acc : List DailyTotal) (d : String),
      amountOf (data.foldl step acc) d =
        amountOf acc d +
          ((data.filter (fun c => c.collection_date = d)).map
            (fun c => c.total_amount)).sum := by
  induction data with
  | nil => intro acc d; simp
  | cons c cs ih =>
      intro acc d
      rw [List.foldl_cons, ih (step acc c) d, amountOf_step, List.filter_cons]
      by_cases hd : c.collection_date = d <;> (simp [hd]; try ring)

theorem entry_foldl_isSome (data : List Collection) :
    ∀ (acc : List DailyTotal) (d : String),
      (entry (data.foldl step acc) d).isSome ↔
        (entry acc d).isSome ∨ ∃ c ∈ data, c.collection_date = d := by
  induction data with
  | nil => intro acc d; simp
  | cons c cs ih =>
      intro acc d
      rw [List.foldl_cons, ih (step acc c) d, entry_step]
      by_cases hd : c.collection_date = d
      · simp only [if_pos hd, Option.isSome_some, true_or, true_iff, List.mem_cons]
        exact Or.inr ⟨c, Or.inl rfl, hd⟩
      · simp only [if_neg hd, List.mem_cons]
        constructor
        · rintro (h | ⟨x, hx, hxd⟩)
          · exact Or.inl h
          · exact Or.inr ⟨x, Or.inr hx, hxd⟩
        · rintro (h | ⟨x, hx | hx, hxd⟩)
          · exact Or.inl h
          · exact absurd (hx ▸ hxd) hd
          · exact Or.inr ⟨x, hx, hxd⟩

theorem groupOf_isSome {data : List Collection} {c : Collection} (h : c ∈ data) :
    (groupOf data c).isSome := by
  unfold groupOf grouped
  rw [entry_foldl_isSome]
  exact Or.inr ⟨c, h, rfl⟩

end DailyPaymentSummary

theorem filterMap_fat_eq_map_of_all {cols : List Collection}
    (h : ∀ c ∈ cols, (c.fat_percentage).isSome) :
    cols.filterMap (fun c => c.fat_percentage) =
      cols.map (fun c => c.fat_percentage.getD 0) := by
  induction cols with
  | nil => rfl
  | cons c cs ih =>
      obtain ⟨v, hv⟩ := Option.isSome_iff_exists.mp (h c (List.mem_cons_self c cs))
      rw [List.filterMap_cons, hv, List.map_cons]
      rw [ih fun x hx => h x (List.mem_cons_of_mem c hx)]
      simp [hv]

end MilkFlow

/-! ## Claims -/

namespace MilkFlow

/-- Claim C1, counterexample: at quantity 0.01 and rate 0.01 (both
positive decimals with two fractional digits) the flat-rate
calculator returns the exact product 0.0001, which differs from the
product rounded to 2 decimal places (0.00). -/
theorem claim_C1_counterexample :
    (0 : ℚ) < 1 / 100 ∧ Dec2 (1 / 100) ∧
      FlatForm.calculateAmount (some (1 / 100)) (some (1 / 100)) ≠
        round2 (1 / 100 * (1 / 100)) := by
  refine ⟨by norm_num, ⟨1, by norm_num⟩, ?_⟩
  have h : round2 (1 / 100 * (1 / 100)) = 0 := by
    have hb := round2_of_bounds (x := 1 / 100 * (1 / 100)) (n := 0)
      (by norm_num) (by norm_num)
    simpa using hb
  rw [h]
  show (1 / 100 : ℚ) * (1 / 100) ≠ 0
  norm_num

/-- Claim C1 (amended): for every positive quantity and rate the
flat-rate calculator's total is the exact, unrounded product
quantity times rate; it coincides with the product rounded to 2
decimal places exactly when that product already has at most 2
fractional digits. -/
theorem claim_C1_amended (q r : ℚ) (_hq : 0 < q) (_hr : 0 < r) :
    FlatForm.calculateAmount (some q) (some r) = q * r ∧
      (Dec2 (q * r) →
        FlatForm.calculateAmount (some q) (some r) = round2 (q * r)) := by
  refine ⟨rfl, fun h => ?_⟩
  rw [show FlatForm.calculateAmount (some q) (some r) = q * r from rfl,
    round2_of_dec2 h]

/-- Witness for claim C1's amended theorem at quantity 2 and rate 1.5. -/
theorem claim_C1_witness :
    FlatForm.calculateAmount (some 2) (some (3 / 2)) = 2 * (3 / 2) ∧
      (Dec2 (2 * (3 / 2)) →
        FlatForm.calculateAmount (some 2) (some (3 / 2)) = round2 (2 * (3 / 2))) :=
  claim_C1_amended 2 (3 / 2) (by norm_num) (by norm_num)

/-- Claim C2, counterexample: at quantity 0.01, base rate 0.01 and fat
percentage 0, the fat-adjusted calculator's total is the exact product
0.0001, not that product rounded to 2 decimal places (0.00). -/
theorem claim_C2_counterexample :
    (0 : ℚ) < 1 / 100 ∧ (0 : ℚ) ≤ 0 ∧ (0 : ℚ) ≤ 100 ∧
      (FatForm.calculateAmount (some (1 / 100)) (some 0) (some (1 / 100))).2 ≠
        round2 (1 / 100 * (1 / 100 * (1 + 0 / 100))) := by
  refine ⟨by norm_num, le_refl 0, by norm_num, ?_⟩
  have h : round2 (1 / 100 * (1 / 100 * (1 + 0 / 100)) : ℚ) = 0 := by
    have hb := round2_of_bounds (x := 1 / 100 * (1 / 100 * (1 + 0 / 100))) (n := 0)
      (by norm_num) (by norm_num)
    simpa using hb
  rw [h]
  show (1 / 100 : ℚ) * (1 / 100 * (1 + 0 / 100)) ≠ 0
  norm_num

/-- Claim C2 (amended): the fat-adjusted calculator's total is the
exact, unrounded product qty times base times (1 plus fat/100),
coinciding with the rounded value exactly when the product has at
most 2 fractional digits; and with fat percentage exactly 0 it
produces the same rate per liter (the base rate) and the same total
as the flat-rate calculator at the same base rate and quantity. -/
theorem claim_C2_amended (q b f : ℚ) (_hq : 0 < q) (_hb : 0 < b)
    (_hf0 : 0 ≤ f) (_hf100 : f ≤ 100) :
    (FatForm.calculateAmount (some q) (some f) (some b)).2 =
        q * (b * (1 + f / 100)) ∧
      (Dec2 (q * (b * (1 + f / 100))) →
        (FatForm.calculateAmount (some q) (some f) (some b)).2 =
          round2 (q * (b * (1 + f / 100)))) ∧
      (FatForm.calculateAmount (some q) (some 0) (some b)).1 = b ∧
      (FatForm.calculateAmount (some q) (some 0) (some b)).2 =
        FlatForm.calculateAmount (some q) (some b) := by
  refine ⟨rfl, fun h => ?_, ?_, ?_⟩
  · rw [show (FatForm.calculateAmount (some q) (some f) (some b)).2 =
        q * (b * (1 + f / 100)) from rfl, round2_of_dec2 h]
  · show b * (1 + 0 / 100) = b
    norm_num
  · show q * (b * (1 + 0 / 100)) = q * b
    norm_num

/-- Witness for claim C2's amended theorem at quantity 2, base 3,
fat percentage 50. -/
theorem claim_C2_witness :
    (FatForm.calculateAmount (some 2) (some 50) (some 3)).2 =
        2 * (3 * (1 + 50 / 100)) ∧
      (Dec2 (2 * (3 * (1 + 50 / 100))) →
        (FatForm.calculateAmount (some 2) (some 50) (some 3)).2 =
          round2 (2 * (3 * (1 + 50 / 100)))) ∧
      (FatForm.calculateAmount (some 2) (some 0) (some 3)).1 = 3 ∧
      (FatForm.calculateAmount (some 2) (some 0) (some 3)).2 =
        FlatForm.calculateAmount (some 2) (some 3) :=
  claim_C2_amended 2 3 50 (by norm_num) (by norm_num) (by norm_num) (by norm_num)

/-- Claim C3, counterexample: a fat-adjusted entry with quantity 100,
fat 0.03 and base rate 10 derives the exact rate 10.003; the stored
rate rounds to 10.00 while the stored total rounds the exact product
to 1000.30, so the persisted total does not equal the persisted
quantity times the persisted rate at 2 decimal places (1000.00). -/
theorem claim_C3_counterexample :
    (FatForm.persist 100 (3 / 100) 10).total_amount ≠
      round2 ((FatForm.persist 100 (3 / 100) 10).quantity_liters *
        (FatForm.persist 100 (3 / 100) 10).rate_per_liter) := by
  have hcalc1 : (FatForm.calculateAmount (some (100 : ℚ)) (some (3 / 100)) (some 10)).1 =
      10003 / 1000 := by
    show (10 : ℚ) * (1 + 3 / 100 / 100) = 10003 / 1000
    norm_num
  have hcalc2 : (FatForm.calculateAmount (some (100 : ℚ)) (some (3 / 100)) (some 10)).2 =
      10003 / 10 := by
    show (100 : ℚ) * (10 * (1 + 3 / 100 / 100)) = 10003 / 10
    norm_num
  have hq : (FatForm.persist 100 (3 / 100) 10).quantity_liters = 100 := by
    show round2 100 = 100
    exact round2_of_dec2 ⟨10000, by norm_num⟩
  have hr : (FatForm.persist 100 (3 / 100) 10).rate_per_liter = 10 := by
    show round2 (FatForm.calculateAmount (some 100) (some (3 / 100)) (some 10)).1 = 10
    rw [hcalc1]
    have hb := round2_of_bounds (x := 10003 / 1000) (n := 1000)
      (by norm_num) (by norm_num)
    rw [hb]; norm_num
  have ht : (FatForm.persist 100 (3 / 100) 10).total_amount = 10003 / 10 := by
    show round2 (FatForm.calculateAmount (some 100) (some (3 / 100)) (some 10)).2 =
      10003 / 10
    rw [hcalc2]
    exact round2_of_dec2 ⟨100030, by norm_num⟩
  rw [ht, hq, hr]
  have h1000 : round2 ((100 : ℚ) * 10) = 1000 := by
    have := round2_of_dec2 (x := (100 : ℚ) * 10) ⟨100000, by norm_num⟩
    rw [this]; norm_num
  rw [h1000]
  norm_num

/-- Claim C3 (amended): the persisted total equals the persisted
quantity times the persisted rate rounded to the stored 2-decimal
precision on the flat-rate path whenever quantity and rate have at
most 2 fractional digits, and on the fat-adjusted path whenever the
derived rate base times (1 plus fat/100) already has at most 2
fractional digits; when the derived rate has more digits its rounding
is independent of the total's and the invariant can fail. -/
theorem claim_C3_amended :
    (∀ q r : ℚ, Dec2 q → Dec2 r →
      (FlatForm.persist q r).total_amount =
        round2 ((FlatForm.persist q r).quantity_liters *
          (FlatForm.persist q r).rate_per_liter)) ∧
    (∀ q f b : ℚ, Dec2 q →
      Dec2 ((FatForm.calculateAmount (some q) (some f) (some b)).1) →
      (FatForm.persist q f b).total_amount =
        round2 ((FatForm.persist q f b).quantity_liters *
          (FatForm.persist q f b).rate_per_liter)) := by
  constructor
  · intro q r hq hr
    show round2 (FlatForm.calculateAmount (some q) (some r)) =
      round2 (round2 q * round2 r)
    rw [round2_of_dec2 hq, round2_of_dec2 hr]
    rfl
  · intro q f b hq hrate
    show round2 (FatForm.calculateAmount (some q) (some f) (some b)).2 =
      round2 (round2 q *
        round2 (FatForm.calculateAmount (some q) (some f) (some b)).1)
    rw [round2_of_dec2 hq, round2_of_dec2 hrate]
    rfl

/-- Witness for claim C3's amended theorem: the flat path at quantity
1 and rate 2. -/
theorem claim_C3_witness :
    (FlatForm.persist 1 2).total_amount =
      round2 ((FlatForm.persist 1 2).quantity_liters *
        (FlatForm.persist 1 2).rate_per_liter) :=
  claim_C3_amended.1 1 2 ⟨100, by norm_num⟩ ⟨200, by norm_num⟩

/-- Claim C4: for a caller holding only the supplier role, the SELECT
policy on collection records admits a row exactly when the row's
supplier id belongs to a suppliers row linked to the caller; hence any
result set obtained through any requested filter contains only rows of
the caller's own suppliers. -/
theorem claim_C4 (db : DB) (uid : Nat)
    (_hsup : has_role db uid AppRole.supplier = true)
    (hadm : has_role db uid AppRole.admin = false) :
    (∀ row : CollectionRow,
      collectionSelectPolicy db uid row = true ↔
        ∃ s ∈ db.suppliers, s.id = row.supplier_id ∧ s.user_id = some uid) ∧
    (∀ (requested : CollectionRow → Bool) (rows : List CollectionRow),
      ∀ r ∈ rows.filter (fun row => collectionSelectPolicy db uid row && requested row),
        ∃ s ∈ db.suppliers, s.id = r.supplier_id ∧ s.user_id = some uid) := by
  have hiff : ∀ row : CollectionRow,
      collectionSelectPolicy db uid row = true ↔
        ∃ s ∈ db.suppliers, s.id = row.supplier_id ∧ s.user_id = some uid := by
    intro row
    unfold collectionSelectPolicy ownSupplierIds
    rw [hadm]
    simp [List.mem_filter, List.mem_map]
    constructor
    · rintro ⟨s, ⟨hs, hlink⟩, hid⟩
      exact ⟨s, hs, hid, hlink⟩
    · rintro ⟨s, hs, hid, hlink⟩
      exact ⟨s, ⟨hs, hlink⟩, hid⟩
  refine ⟨hiff, ?_⟩
  intro requested rows r hr
  have hmem := List.mem_filter.mp hr
  have hpol : collectionSelectPolicy db uid r = true := by
    have := hmem.2
    exact (Bool.and_eq_true _ _).mp this |>.1
  exact (hiff r).mp hpol

/-- Witness for claim C4 on a concrete database: identity 7 holds only
the supplier role and is linked to supplier 5; the policy admits a
collection row of supplier 5 exactly per the linkage condition. -/
theorem claim_C4_witness :
    collectionSelectPolicy
        ⟨[⟨5, some 7, "123"⟩, ⟨6, some 8, "456"⟩], [(7, AppRole.supplier), (8, AppRole.admin)]⟩
        7 ⟨1, 5⟩ = true ↔
      ∃ s ∈ (⟨[⟨5, some 7, "123"⟩, ⟨6, some 8, "456"⟩],
          [(7, AppRole.supplier), (8, AppRole.admin)]⟩ : DB).suppliers,
        s.id = (⟨1, 5⟩ : CollectionRow).supplier_id ∧ s.user_id = some 7 :=
  (claim_C4 ⟨[⟨5, some 7, "123"⟩, ⟨6, some 8, "456"⟩],
    [(7, AppRole.supplier), (8, AppRole.admin)]⟩ 7 (by decide) (by decide)).1 ⟨1, 5⟩

/-- Claim C5, counterexample: over the records with fat values 4,
null, 6, the supplier page and the daily SMS job both compute the
average fat as 10/3 (null zero-filled and counted in the denominator),
not 5 as the claim states; the present-only average written from the
spec's words gives 5. -/
theorem claim_C5_counterexample :
    (SupplierPage.fetchSupplierStats
        [⟨"2025-10-01", 1, 10, some 4, 100⟩, ⟨"2025-10-01", 1, 10, none, 100⟩,
          ⟨"2025-10-01", 1, 10, some 6, 100⟩]).avgFatPercentage ≠ 5 ∧
      DailySummaryJob.avgFat
        [⟨"2025-10-01", 1, 10, some 4, 100⟩, ⟨"2025-10-01", 1, 10, none, 100⟩,
          ⟨"2025-10-01", 1, 10, some 6, 100⟩] ≠ 5 ∧
      specAvgFat
        [⟨"2025-10-01", 1, 10, some 4, 100⟩, ⟨"2025-10-01", 1, 10, none, 100⟩,
          ⟨"2025-10-01", 1, 10, some 6, 100⟩] = 5 := by
  refine ⟨?_, ?_, ?_⟩
  · norm_num [SupplierPage.fetchSupplierStats, List.foldl]
  · norm_num [DailySummaryJob.avgFat, List.foldl]
  · norm_num [specAvgFat, List.filterMap]

/-- Claim C5 (amended): the aggregated average fat zero-fills records
with absent fat percentage and divides by the total record count (so
for fat values 4, null, 6 it yields 10/3, not 5); it agrees with the
present-only average exactly described by the spec when every record
carries a fat value. -/
theorem claim_C5_amended (cols : List Collection) (hne : cols ≠ []) :
    (SupplierPage.fetchSupplierStats cols).avgFatPercentage =
        (cols.map (fun c => c.fat_percentage.getD 0)).sum / cols.length ∧
      DailySummaryJob.avgFat cols =
        (cols.map (fun c => c.fat_percentage.getD 0)).sum / cols.length ∧
      ((∀ c ∈ cols, (c.fat_percentage).isSome) →
        (SupplierPage.fetchSupplierStats cols).avgFatPercentage = specAvgFat cols) := by
  have hlen : cols.length ≠ 0 := by
    simpa [List.length_eq_zero] using hne
  have hfold : cols.foldl (fun sum c => sum + c.fat_percentage.getD 0) 0 =
      (cols.map (fun c => c.fat_percentage.getD 0)).sum := by
    simpa using foldl_add_map (fun c : Collection => c.fat_percentage.getD 0) cols 0
  have h1 : (SupplierPage.fetchSupplierStats cols).avgFatPercentage =
      (cols.map (fun c => c.fat_percentage.getD 0)).sum / cols.length := by
    show ite _ _ _ = _
    rw [if_neg hlen, hfold]
  refine ⟨h1, ?_, ?_⟩
  · show cols.foldl (fun sum c => sum + c.fat_percentage.getD 0) 0 / (cols.length : ℚ) = _
    rw [hfold]
  · intro hall
    rw [h1]
    unfold specAvgFat
    rw [filterMap_fat_eq_map_of_all hall]
    simp [hlen]

/-- Witness for claim C5's amended theorem on a single record with
fat 4. -/
theorem claim_C5_witness :
    (SupplierPage.fetchSupplierStats [⟨"2025-10-01", 1, 10, some 4, 100⟩]).avgFatPercentage =
      (([⟨"2025-10-01", 1, 10, some 4, 100⟩] : List Collection).map
        (fun c => c.fat_percentage.getD 0)).sum /
        ([⟨"2025-10-01", 1, 10, some 4, 100⟩] : List Collection).length :=
  (claim_C5_amended [⟨"2025-10-01", 1, 10, some 4, 100⟩] (by simp)).1

/-- Claim C6: every aggregation evaluated at the empty record set
yields all-zero summary statistics (the daily grouping yields the
empty list of day rows), with the averages' guarded divisions
returning 0 rather than dividing by zero. -/
theorem claim_C6 :
    AdminDashboard.fetchDashboardStats 0 [] = ⟨0, 0, 0, 0⟩ ∧
      SupplierPage.fetchSupplierStats [] = ⟨0, 0, 0⟩ ∧
      SupplierPageFlat.fetchSupplierStats [] = ⟨0, 0⟩ ∧
      DailyPaymentSummary.grouped [] = [] := by
  refine ⟨?_, ?_, rfl, rfl⟩
  · show AdminDashboard.Stats.mk 0 _ _ (ite _ _ _) = _
    simp [AdminDashboard.fetchDashboardStats]
  · show SupplierPage.Stats.mk _ _ (ite _ _ _) = _
    simp [SupplierPage.fetchSupplierStats]

/-- Claim C7: two records land in the same daily group if and only if
their stored date strings are textually identical (in particular the
supplier id plays no role in the grouping). -/
theorem claim_C7 (data : List Collection) (c1 c2 : Collection)
    (h1 : c1 ∈ data) (_h2 : c2 ∈ data) :
    DailyPaymentSummary.groupOf data c1 = DailyPaymentSummary.groupOf data c2 ↔
      c1.collection_date = c2.collection_date := by
  constructor
  · intro h
    obtain ⟨t1, ht1⟩ :=
      Option.isSome_iff_exists.mp (DailyPaymentSummary.groupOf_isSome h1)
    have e1 : DailyPaymentSummary.entry (DailyPaymentSummary.grouped data)
        c1.collection_date = some t1 := ht1
    have e2 : DailyPaymentSummary.entry (DailyPaymentSummary.grouped data)
        c2.collection_date = some t1 := by
      have : DailyPaymentSummary.groupOf data c2 = some t1 := h ▸ ht1
      exact this
    have d1 := DailyPaymentSummary.entry_date e1
    have d2 := DailyPaymentSummary.entry_date e2
    rw [← d1, ← d2]
  · intro h
    unfold DailyPaymentSummary.groupOf
    rw [h]

/-- Witness for claim C7: two records sharing the date string but with
different supplier ids land in the same group. -/
theorem claim_C7_witness :
    DailyPaymentSummary.groupOf
        [⟨"2025-10-01", 1, 10, none, 350⟩, ⟨"2025-10-01", 2, 5, none, 175⟩]
        ⟨"2025-10-01", 1, 10, none, 350⟩ =
      DailyPaymentSummary.groupOf
        [⟨"2025-10-01", 1, 10, none, 350⟩, ⟨"2025-10-01", 2, 5, none, 175⟩]
        ⟨"2025-10-01", 2, 5, none, 175⟩ :=
  (claim_C7 [⟨"2025-10-01", 1, 10, none, 350⟩, ⟨"2025-10-01", 2, 5, none, 175⟩]
    ⟨"2025-10-01", 1, 10, none, 350⟩ ⟨"2025-10-01", 2, 5, none, 175⟩
    (by simp) (by simp)).mpr rfl

/-- Claim C8, counterexample: with quantity 1, base rate 1 and a
missing fat percentage the fat-adjusted calculator returns total 0,
silently zeroing the total instead of treating the missing fat as a
0 percent adjustment (which would give 1 times 1). -/
theorem claim_C8_counterexample :
    (FatForm.calculateAmount (some 1) none (some 1)).2 = 0 ∧ (1 : ℚ) * 1 ≠ 0 := by
  exact ⟨rfl, by norm_num⟩

/-- Claim C8 (amended): a fat percentage of exactly 0 is treated as a
0 percent adjustment (rate equals the base rate and the total equals
quantity times base, with no exception possible); a missing fat
percentage instead short-circuits the calculator to a zero rate and
zero total, and the submission guard rejects the entry, so no record
is persisted from it. -/
theorem claim_C8_amended (q b : ℚ) (_hq : 0 < q) (_hb : 0 < b) :
    FatForm.calculateAmount (some q) (some 0) (some b) = (b, q * b) ∧
      FatForm.calculateAmount (some q) none (some b) = (0, 0) ∧
      FatForm.submitAccepted (some 1) (some q) none = false := by
  refine ⟨?_, rfl, rfl⟩
  show (b * (1 + 0 / 100), q * (b * (1 + 0 / 100))) = (b, q * b)
  norm_num

/-- Witness for claim C8's amended theorem at quantity 1 and base 1. -/
theorem claim_C8_witness :
    FatForm.calculateAmount (some 1) (some 0) (some 1) = (1, 1 * 1) :=
  (claim_C8_amended 1 1 (by norm_num) (by norm_num)).1

/-- Claim C9 evaluated at the failing input: pushing one record with
fat 4 onto the freshly fetched empty state leaves the displayed
average fat at 0, while full re-aggregation over the authoritative
record set yields average fat 4 — the incremental update is not
equivalent to recomputation. -/
theorem claim_C9_code_bug :
    SupplierPage.realtimeInsertStats (SupplierPage.fetchSupplierStats [])
        ⟨"2025-10-01", 1, 10, some 4, 350⟩ ≠
      SupplierPage.fetchSupplierStats [⟨"2025-10-01", 1, 10, some 4, 350⟩] := by
  intro h
  have havg := congrArg SupplierPage.Stats.avgFatPercentage h
  norm_num [SupplierPage.realtimeInsertStats, SupplierPage.fetchSupplierStats,
    List.foldl] at havg

/-- Claim C10, counterexample: a signup whose metadata carries no
phone coalesces to the empty string; an unlinked supplier row whose
phone is that same empty string is not linked (the trigger's guard
skips the update), contradicting the claim that every unlinked row
sharing the identity's phone is linked. -/
theorem claim_C10_counterexample :
    (link_supplier_to_user none 7 [⟨0, none, ""⟩]).map (fun s => s.user_id) =
        [none] ∧
      (none : Option String).getD "" = (SupplierRow.mk 0 none "").phone ∧
      (SupplierRow.mk 0 none "").user_id = none := by
  refine ⟨?_, rfl, rfl⟩
  rfl

/-- Claim C10 (amended): the linking trigger only ever turns an
unlinked supplier row with the identity's phone into the same row
linked to the new identity; rows with a non-null user id are never
modified; and when the identity's phone is non-empty, every unlinked
supplier row carrying that phone is linked — a signup with an absent
or empty phone links nothing. -/
theorem claim_C10_amended (metaPhone : Option String) (newId : Nat)
    (suppliers : List SupplierRow) :
    (∀ t ∈ link_supplier_to_user metaPhone newId suppliers,
        t ∈ suppliers ∨
          ∃ s ∈ suppliers, s.phone = metaPhone.getD "" ∧ s.user_id = none ∧
            t = { s with user_id := some newId }) ∧
    (∀ s ∈ suppliers, s.user_id ≠ none →
        s ∈ link_supplier_to_user metaPhone newId suppliers) ∧
    (metaPhone.getD "" ≠ "" →
      ∀ s ∈ suppliers, s.phone = metaPhone.getD "" → s.user_id = none →
        { s with user_id := some newId } ∈
          link_supplier_to_user metaPhone newId suppliers) := by
  by_cases hp : metaPhone.getD "" ≠ ""
  · have hlink : link_supplier_to_user metaPhone newId suppliers =
        suppliers.map (fun s =>
          if s.phone = metaPhone.getD "" ∧ s.user_id = none then
            { s with user_id := some newId }
          else s) := by
      simp [link_supplier_to_user, hp]
    refine ⟨?_, ?_, ?_⟩
    · intro t ht
      rw [hlink] at ht
      obtain ⟨s, hs, hfs⟩ := List.mem_map.mp ht
      by_cases hc : s.phone = metaPhone.getD "" ∧ s.user_id = none
      · rw [if_pos hc] at hfs
        exact Or.inr ⟨s, hs, hc.1, hc.2, hfs.symm⟩
      · rw [if_neg hc] at hfs
        exact Or.inl (hfs ▸ hs)
    · intro s hs hlinked
      rw [hlink]
      have : (if s.phone = metaPhone.getD "" ∧ s.user_id = none then
          { s with user_id := some newId } else s) = s := by
        rw [if_neg]
        rintro ⟨-, hnone⟩
        exact hlinked hnone
      exact this ▸ List.mem_map_of_mem _ hs
    · intro _ s hs hphone hnone
      rw [hlink]
      have : (if s.phone = metaPhone.getD "" ∧ s.user_id = none then
          { s with user_id := some newId } else s) =
          { s with user_id := some newId } := if_pos ⟨hphone, hnone⟩
      exact this ▸ List.mem_map_of_mem _ hs
  · have hlink : link_supplier_to_user metaPhone newId suppliers = suppliers := by
      simp [link_supplier_to_user]
      intro hcontra
      exact absurd hcontra hp
    refine ⟨?_, ?_, ?_⟩
    · intro t ht
      rw [hlink] at ht
      exact Or.inl ht
    · intro s hs _
      rw [hlink]
      exact hs
    · intro hcontra
      exact absurd hcontra hp

/-- Witness for claim C10's amended theorem: an already linked supplier
row is left unchanged by a signup with a matching phone. -/
theorem claim_C10_witness :
    SupplierRow.mk 3 (some 9) "p" ∈
      link_supplier_to_user (some "p") 7 [⟨3, some 9, "p"⟩] :=
  (claim_C10_amended (some "p") 7 [⟨3, some 9, "p"⟩]).2.1
    ⟨3, some 9, "p"⟩ (by simp) (by simp)

end MilkFlow
